import Mathlib

/-!
Verification of the lead-scoring backend (rule engine, AI scorer with
fallback, scoring orchestrator and summary statistics).

The JavaScript source is shallowly embedded: JS strings are Lean `String`
(operated on through their `List Char` data, with structurally recursive
helpers so all definitions evaluate by kernel reduction), possibly-undefined
values are `Option`, objects are structures, and JS numbers appearing in the
summary statistics are modelled by `JsNum` (a rational together with the
special values NaN and the two infinities that JS division and empty
`Math.max`/`Math.min` produce).  The network call to the Gemini API is
modelled as an oracle argument of type `Except String String` (either the
response text or a thrown error).  The keyword lists the program lowers and
matches against are ASCII, so the embedded functions use the ASCII case
mapping (`Char.toLower`, `Char.toUpper`); JS `toUpperCase`/`toLowerCase`
additionally carry non-ASCII Unicode case mappings, modelled on the
fragment where they matter by `jsUpperStr`/`jsLowerStr`.
-/

namespace LeadScoring

/-! ## JS string primitives -/

/-- Whitespace characters recognised by the model of JS `\s` and
`String.prototype.trim` (ASCII fragment: space, tab, LF, VT, FF, CR). -/
def jsWS (c : Char) : Bool :=
  c == ' ' || c == '\t' || c == '\n' || c == '\r' || c.toNat == 11 || c.toNat == 12

/-- `leadsWith p l` : the char list `p` occurs at the start of `l`. -/
def leadsWith : List Char → List Char → Bool
  | [], _ => true
  | _ :: _, [] => false
  | p :: ps, c :: cs => p == c && leadsWith ps cs

/-- `containsSeg pat hay` : `pat` occurs contiguously somewhere in `hay`
(model of JS `String.prototype.includes`). -/
def containsSeg (pat : List Char) : List Char → Bool
  | [] => leadsWith pat []
  | c :: t => leadsWith pat (c :: t) || containsSeg pat t

/-- Model of JS `s.includes(pat)`. -/
def jsIncludes (s pat : String) : Bool := containsSeg pat.data s.data

def lowerList (l : List Char) : List Char := l.map Char.toLower

def upperList (l : List Char) : List Char := l.map Char.toUpper

/-- Model of JS `s.toLowerCase()` restricted to the ASCII case mapping (the
strings the embedded functions lower and match against are ASCII keyword
lists; the non-ASCII mappings of the full JS conversion are modelled by
`jsLowerStr` where they matter). -/
def lowerStr (s : String) : String := String.mk (lowerList s.data)

/-- ASCII uppercase mapping: the restriction of JS `s.toUpperCase()` to
ASCII input.  The full JS conversion on the Unicode fragment used in this
development is `jsUpperStr`. -/
def upperStr (s : String) : String := String.mk (upperList s.data)

/-- One character of the JS `toUpperCase` conversion (Unicode Default Case
Conversion, as ECMAScript specifies) on the fragment needed here: the ASCII
mapping plus the non-ASCII mappings U+017F (LATIN SMALL LETTER LONG S, ſ)
→ `S`, U+00DF (ß) → `SS`, U+FB06 (ligature ﬆ) → `ST`.  Characters outside
this fragment whose mappings are not needed are left unchanged. -/
def jsUpperChar (c : Char) : List Char :=
  if c.toNat == 0x17F then ['S']
  else if c.toNat == 0xDF then ['S', 'S']
  else if c.toNat == 0xFB06 then ['S', 'T']
  else [c.toUpper]

def jsUpperList : List Char → List Char
  | [] => []
  | c :: t => jsUpperChar c ++ jsUpperList t

/-- Model of JS `s.toUpperCase()` on the Unicode fragment of `jsUpperChar`
(it can grow the string, e.g. ß → SS). -/
def jsUpperStr (s : String) : String := String.mk (jsUpperList s.data)

/-- One character of the JS `toLowerCase` conversion on the fragment needed
here: the ASCII mapping plus U+212A (KELVIN SIGN) → `k` and U+0130 (LATIN
CAPITAL LETTER I WITH DOT ABOVE) → `i` followed by U+0307 (COMBINING DOT
ABOVE).  Characters outside this fragment whose mappings are not needed are
left unchanged. -/
def jsLowerChar (c : Char) : List Char :=
  if c.toNat == 0x212A then ['k']
  else if c.toNat == 0x130 then ['i', Char.ofNat 0x307]
  else [c.toLower]

def jsLowerList : List Char → List Char
  | [] => []
  | c :: t => jsLowerChar c ++ jsLowerList t

/-- Model of JS `s.toLowerCase()` on the Unicode fragment of `jsLowerChar`. -/
def jsLowerStr (s : String) : String := String.mk (jsLowerList s.data)

/-- Model of JS `s.trim()` : drop leading and trailing whitespace. -/
def jsTrim (l : List Char) : List Char :=
  ((l.dropWhile (fun c => jsWS c)).reverse.dropWhile (fun c => jsWS c)).reverse

def jsTrimStr (s : String) : String := String.mk (jsTrim s.data)

/-- JS truthiness of a possibly-undefined string: `undefined`/`null` and the
empty string are falsy, every other string is truthy. -/
def jsTruthy : Option String → Bool
  | none => false
  | some s => !(s == "")

/-! ## Data model (src/routes + uploads): offers and leads.
All fields are free text that may be absent in the parsed JS object. -/

structure Offer where
  name : Option String
  value_props : Option (List String)
  ideal_use_cases : Option (List String)
deriving DecidableEq

structure Lead where
  name : Option String
  role : Option String
  company : Option String
  industry : Option String
  location : Option String
  linkedin_bio : Option String
deriving DecidableEq

/-! ## Rule engine (`src/utils/ruleEngine.js`) -/

def DECISION_MAKER_ROLES : List String :=
  ["ceo", "cto", "cfo", "coo", "president", "founder", "owner", "director", "vp",
   "vice president", "head of", "chief", "manager", "lead", "senior manager"]

def INFLUENCER_ROLES : List String :=
  ["senior", "principal", "architect", "specialist", "analyst", "coordinator",
   "supervisor", "team lead", "project manager", "product manager"]

def ICP_INDUSTRIES : List String :=
  ["saas", "software", "technology", "tech", "fintech", "edtech", "healthcare tech",
   "b2b", "enterprise software", "cloud", "digital", "platform", "api"]

def ADJACENT_INDUSTRIES : List String :=
  ["finance", "financial services", "consulting", "marketing", "advertising", "media",
   "e-commerce", "retail", "healthcare", "education", "real estate", "manufacturing"]

/-- The decision-maker loop of `calculateRoleScore`: some keyword of
`DECISION_MAKER_ROLES` occurs in the lowered role string. -/
def roleDecisionHit (roleLower : String) : Bool :=
  DECISION_MAKER_ROLES.any (fun kw => jsIncludes roleLower kw)

/-- The influencer loop of `calculateRoleScore`. -/
def roleInfluencerHit (roleLower : String) : Bool :=
  INFLUENCER_ROLES.any (fun kw => jsIncludes roleLower kw)

/-- `calculateRoleScore(role)` : 20 for a decision-maker keyword match, else
10 for an influencer keyword match, else 0; falsy role gives 0. -/
def calculateRoleScore (role : Option String) : Nat :=
  match role with
  | none => 0
  | some r =>
    if r == "" then 0
    else
      let roleLower := lowerStr r
      if roleDecisionHit roleLower then 20
      else if roleInfluencerHit roleLower then 10
      else 0

/-- `calculateIndustryScore(industry, offer)` : 20 on an `ideal_use_cases`
substring hit, else 20 on an ICP keyword, else 10 on an adjacent-industry
keyword, else 0; falsy industry gives 0. -/
def calculateIndustryScore (industry : Option String) (offer : Option Offer) : Nat :=
  match industry with
  | none => 0
  | some ind =>
    if ind == "" then 0
    else
      let industryLower := lowerStr ind
      let useCaseHit :=
        match offer with
        | none => false
        | some o =>
          match o.ideal_use_cases with
          | none => false
          | some ucs => ucs.any (fun u => jsIncludes industryLower (lowerStr u))
      if useCaseHit then 20
      else if ICP_INDUSTRIES.any (fun kw => jsIncludes industryLower kw) then 20
      else if ADJACENT_INDUSTRIES.any (fun kw => jsIncludes industryLower kw) then 10
      else 0

/-- The six required lead fields, in the order of `requiredFields`. -/
def leadFields (lead : Lead) : List (Option String) :=
  [lead.name, lead.role, lead.company, lead.industry, lead.location, lead.linkedin_bio]

/-- The per-field test of `countCompleteFields`: the field is present
(a truthy string) and non-empty after trimming. -/
def fieldComplete : Option String → Bool
  | none => false
  | some s => !(s == "") && decide (0 < (jsTrimStr s).length)

/-- `countCompleteFields(lead)`. -/
def countCompleteFields (lead : Lead) : Nat :=
  (leadFields lead).countP fieldComplete

/-- `calculateCompletenessScore(lead)`.  The JS source computes
`Math.floor((completeFields / 6) * 10)` in IEEE doubles; for `0 ≤ c ≤ 5`
this coincides with natural-number division `c * 10 / 6` (values
0, 1, 3, 5, 6, 8). -/
def calculateCompletenessScore (lead : Lead) : Nat :=
  let completeFields := countCompleteFields lead
  if completeFields == 6 then 10
  else completeFields * 10 / 6

structure RuleScoreBreakdown where
  roleScore : Nat
  industryScore : Nat
  completenessScore : Nat
  total : Nat
  details : List String
deriving DecidableEq

/-- `calculateRuleScore(lead, offer)` : the three sub-scores, their sum
capped at 50, and the three human-readable detail strings. -/
def calculateRuleScore (lead : Lead) (offer : Option Offer) : RuleScoreBreakdown :=
  let roleScore := calculateRoleScore lead.role
  let roleDetail :=
    if roleScore == 20 then "Decision maker role (+20 points)"
    else if roleScore == 10 then "Influencer role (+10 points)"
    else "Non-decision maker role (0 points)"
  let industryScore := calculateIndustryScore lead.industry offer
  let industryDetail :=
    if industryScore == 20 then "Perfect industry match (+20 points)"
    else if industryScore == 10 then "Adjacent industry match (+10 points)"
    else "No industry match (0 points)"
  let completenessScore := calculateCompletenessScore lead
  let completenessDetail :=
    if completenessScore == 10 then "All fields complete (+10 points)"
    else "Missing " ++ toString (6 - countCompleteFields lead) ++ " fields (-"
      ++ toString (10 - completenessScore) ++ " points)"
  { roleScore := roleScore,
    industryScore := industryScore,
    completenessScore := completenessScore,
    total := min (roleScore + industryScore + completenessScore) 50,
    details := [roleDetail, industryDetail, completenessDetail] }

/-! ## AI scorer (`src/utils/aiScorer.js`) -/

/-- The `source` tag of an AI scoring result: `'gemini'` (the spec's
"model" tag) or `'fallback'`. -/
inductive AISource where
  | gemini
  | fallback
deriving DecidableEq

/-- Result of `scoreLeadWithAI` / `parseAIResponse` / `getFallbackScore`. -/
structure AIScoreResult where
  intent : String
  reasoning : String
  aiPoints : Nat
  source : AISource
deriving DecidableEq

/-- `intentToPoints(intent)` : the JS object lookup
`{High: 50, Medium: 30, Low: 10}[intent] || 30`. -/
def intentToPoints (intent : String) : Nat :=
  if intent == "High" then 50
  else if intent == "Medium" then 30
  else if intent == "Low" then 10
  else 30

/-- The decision-maker titles of the fallback heuristic. -/
def FALLBACK_DECISION_TITLES : List String :=
  ["ceo", "cto", "cfo", "director", "vp", "head", "manager"]

/-- The tech-industry keywords of the fallback heuristic. -/
def FALLBACK_TECH_KEYWORDS : List String :=
  ["tech", "software", "saas", "digital"]

/-- `hasDecisionMakerRole` : `lead.role` is truthy and its lowering contains
one of the decision-maker titles. -/
def hasDecisionMakerRole (lead : Lead) : Bool :=
  match lead.role with
  | none => false
  | some r => !(r == "") && FALLBACK_DECISION_TITLES.any (fun title => jsIncludes (lowerStr r) title)

/-- `hasTechIndustry` : `lead.industry` is truthy and its lowering contains
one of the tech keywords. -/
def hasTechIndustry (lead : Lead) : Bool :=
  match lead.industry with
  | none => false
  | some ind => !(ind == "") && FALLBACK_TECH_KEYWORDS.any (fun kw => jsIncludes (lowerStr ind) kw)

/-- `hasCompleteProfile` : the four core fields are truthy and non-empty
after trimming. -/
def hasCompleteProfile (lead : Lead) : Bool :=
  [lead.name, lead.role, lead.company, lead.industry].all (fun field =>
    match field with
    | none => false
    | some s => !(s == "") && decide (0 < (jsTrimStr s).length))

/-- `getFallbackScore(lead, offer)` : deterministic heuristic used when the
AI path is unavailable.  The `offer` parameter is accepted but never read,
exactly as in the source. -/
def getFallbackScore (lead : Option Lead) (offer : Option Offer) : AIScoreResult :=
  match lead with
  | none =>
    { intent := "Low", reasoning := "Insufficient lead data for analysis",
      aiPoints := 10, source := AISource.fallback }
  | some l =>
    if hasDecisionMakerRole l && hasTechIndustry l && hasCompleteProfile l then
      { intent := "High",
        reasoning := "Fallback analysis: Decision maker in tech industry with complete profile indicates high intent",
        aiPoints := 50, source := AISource.fallback }
    else if hasDecisionMakerRole l || hasTechIndustry l then
      { intent := "Medium",
        reasoning := "Fallback analysis: Some positive indicators but not all criteria met",
        aiPoints := 30, source := AISource.fallback }
    else
      { intent := "Low",
        reasoning := "Fallback analysis: Limited indicators of buying intent or decision-making authority",
        aiPoints := 10, source := AISource.fallback }

/-- Normalisation of the captured intent label:
`charAt(0).toUpperCase() + slice(1).toLowerCase()`. -/
def normalizeIntent (w : List Char) : String :=
  match w with
  | [] => ""
  | c :: cs => String.mk (c.toUpper :: lowerList cs)

/-- Case-insensitive occurrence of the pattern at the start of the list
(used for the `/i` regex pieces). -/
def ciLeads : List Char → List Char → Bool
  | [], _ => true
  | _ :: _, [] => false
  | p :: ps, c :: cs => (p.toLower == c.toLower) && ciLeads ps cs

/-- Model of `line.toLowerCase().startsWith(p)` for a lowercase literal `p`. -/
def lowerStarts (p : List Char) (line : List Char) : Bool :=
  leadsWith p (lowerList line)

/-- The alternation `(high|medium|low)` of the intent regex tried at the
current position: on success returns the matched (original-case) word. -/
def intentLabelAt (l : List Char) : Option (List Char) :=
  if ciLeads "high".data l then some (l.take 4)
  else if ciLeads "medium".data l then some (l.take 6)
  else if ciLeads "low".data l then some (l.take 3)
  else none

/-- Model of `line.match(/intent:\s*(high|medium|low)/i)` : scan for the
leftmost position where `intent:` occurs (case-insensitively) followed by
whitespace and one of the three labels, returning the captured label.
The greedy `\s*` never needs to backtrack because the labels start with a
non-whitespace character. -/
def intentSearch : List Char → Option (List Char)
  | [] => none
  | c :: cs =>
    if ciLeads "intent:".data (c :: cs) then
      match intentLabelAt (((c :: cs).drop 7).dropWhile (fun ch => jsWS ch)) with
      | some w => some w
      | none => intentSearch cs
    else intentSearch cs

/-- Model of `line.replace(/reasoning:\s*/i, '')` : remove the first
(case-insensitive) occurrence of `reasoning:` together with the following
whitespace. -/
def stripReasoningTag : List Char → List Char
  | [] => []
  | c :: cs =>
    if ciLeads "reasoning:".data (c :: cs) then ((c :: cs).drop 10).dropWhile (fun ch => jsWS ch)
    else c :: stripReasoningTag cs

/-- The line loop of `parseAIResponse`, threading the mutable `intent` and
`reasoning` variables. -/
def parseLines : List (List Char) → String → String → String × String
  | [], intent, reasoning => (intent, reasoning)
  | line :: rest, intent, reasoning =>
    if lowerStarts "intent:".data line then
      match intentSearch line with
      | some w => parseLines rest (normalizeIntent w) reasoning
      | none => parseLines rest intent reasoning
    else if lowerStarts "reasoning:".data line then
      parseLines rest intent (String.mk (jsTrim (stripReasoningTag line)))
    else
      parseLines rest intent reasoning

/-- Model of `s.split('\n')`. -/
def splitNewlines : List Char → List (List Char)
  | [] => [[]]
  | c :: t =>
    if c == '\n' then [] :: splitNewlines t
    else
      match splitNewlines t with
      | [] => [[c]]
      | h :: t2 => (c :: h) :: t2

/-- `parseAIResponse(aiResponse)` : a falsy response (absent or empty)
returns `getFallbackScore()` with no arguments; otherwise the trimmed
response is split into lines, scanned for `intent:` / `reasoning:` lines
(with defaults `'Medium'` and `'AI analysis completed'`), and the result is
tagged `source = 'gemini'` with `intentToPoints` applied to the intent. -/
def parseAIResponse (aiResponse : Option String) : AIScoreResult :=
  match aiResponse with
  | none => getFallbackScore none none
  | some r =>
    if r == "" then getFallbackScore none none
    else
      let lines := splitNewlines (jsTrim r.data)
      let parsed := parseLines lines "Medium" "AI analysis completed"
      { intent := parsed.1, reasoning := parsed.2,
        aiPoints := intentToPoints parsed.1, source := AISource.gemini }

/-- `scoreLeadWithAI(lead, offer)` : when no credential is configured the
fallback result is returned; otherwise the Gemini call (modelled by the
`geminiCall` oracle: `Except.error` is a thrown exception, `Except.ok` the
response text) is made, a throw is caught and replaced by the fallback, and
a returned text is parsed. -/
def scoreLeadWithAI (isConfigured : Bool) (geminiCall : Except String String)
    (lead : Option Lead) (offer : Option Offer) : AIScoreResult :=
  if isConfigured then
    match geminiCall with
    | Except.error _ => getFallbackScore lead offer
    | Except.ok text => parseAIResponse (some text)
  else getFallbackScore lead offer

/-! ## Scoring orchestrator (`src/routes/scoring.js`, POST /api/score) -/

/-- The `breakdown` object of a scored lead. -/
structure ScoreSplit where
  rule_score : Nat
  ai_score : Nat
  final_score : Nat
deriving DecidableEq

/-- The `details` object of a scored lead: either the normal block
`{rule_breakdown, ai_source, ai_reasoning}` or the catch-branch block
`{error: true, error_message}`. -/
inductive ScoredDetails where
  | ok (rule_breakdown : List String) (ai_source : AISource) (ai_reasoning : String)
  | failed (error_message : String)
deriving DecidableEq

structure ScoredLead where
  name : Option String
  role : Option String
  company : Option String
  industry : Option String
  location : Option String
  linkedin_bio : Option String
  intent : String
  score : Nat
  reasoning : String
  breakdown : ScoreSplit
  details : ScoredDetails
deriving DecidableEq

/-- The final-intent thresholds of the handler:
`'High'` at 70, `'Medium'` at 40, else `'Low'`. -/
def finalIntentOf (finalScore : Nat) : String :=
  if finalScore ≥ 70 then "High"
  else if finalScore ≥ 40 then "Medium"
  else "Low"

/-- `buildReasoning(ruleScore, aiScore, finalScore)`. -/
def buildReasoning (ruleScore : RuleScoreBreakdown) (aiScore : AIScoreResult)
    (finalScore : Nat) : String :=
  let parts : List String :=
    (if 0 < ruleScore.total then
      ["Rule analysis: " ++ toString ruleScore.total ++ "/50 points"] ++
        (if 0 < ruleScore.details.length then
          ["(" ++ String.intercalate ", " ruleScore.details ++ ")"]
        else [])
    else []) ++
    (if !(aiScore.reasoning == "") && !(aiScore.reasoning == "AI analysis completed") then
      ["AI analysis: " ++ aiScore.reasoning]
    else []) ++
    [if finalScore ≥ 70 then "High buying intent - strong fit and authority."
     else if finalScore ≥ 40 then "Medium buying intent - some positive indicators."
     else "Low buying intent - limited fit or authority."]
  String.intercalate " " parts

/-- One iteration of the scoring loop.  The body of the `try` block may
throw anywhere (in practice only the awaited AI call can); `outcome` is the
oracle for that: `Except.ok aiScore` is a normal completion with the given
classifier result, `Except.error msg` a thrown exception, answered by the
`catch` branch's zero-score placeholder. -/
def processLead (offer : Option Offer) (lead : Lead)
    (outcome : Except String AIScoreResult) : ScoredLead :=
  match outcome with
  | Except.ok aiScore =>
    let ruleScore := calculateRuleScore lead offer
    let finalScore := min (ruleScore.total + aiScore.aiPoints) 100
    let finalIntent := finalIntentOf finalScore
    { name := lead.name, role := lead.role, company := lead.company,
      industry := lead.industry, location := lead.location,
      linkedin_bio := lead.linkedin_bio,
      intent := finalIntent, score := finalScore,
      reasoning := buildReasoning ruleScore aiScore finalScore,
      breakdown := { rule_score := ruleScore.total, ai_score := aiScore.aiPoints,
                     final_score := finalScore },
      details := ScoredDetails.ok ruleScore.details aiScore.source aiScore.reasoning }
  | Except.error msg =>
    { name := lead.name, role := lead.role, company := lead.company,
      industry := lead.industry, location := lead.location,
      linkedin_bio := lead.linkedin_bio,
      intent := "Low", score := 0,
      reasoning := "Error during scoring: " ++ msg,
      breakdown := { rule_score := 0, ai_score := 0, final_score := 0 },
      details := ScoredDetails.failed msg }

/-- The scoring loop of the POST /api/score handler: each input lead is
processed in order and pushed onto `scoredLeads`. -/
def runScoringPipeline (offer : Option Offer)
    (items : List (Lead × Except String AIScoreResult)) : List ScoredLead :=
  items.map (fun item => processLead offer item.1 item.2)

/-! ## Summary statistics (`calculateSummaryStats`)

JS numbers are modelled by `JsNum` so that the special values produced by
division by zero and by `Math.max()`/`Math.min()` of an empty spread are
representable. -/

inductive JsNum where
  | num (q : ℚ)
  | nan
  | posInf
  | negInf
deriving DecidableEq

/-- JS division for a non-negative numerator: `0/0` is `NaN`, `a/0` with
`a > 0` is `Infinity`, otherwise an exact quotient. -/
def jsDiv (a b : ℚ) : JsNum :=
  if b = 0 then (if a = 0 then JsNum.nan else if 0 < a then JsNum.posInf else JsNum.negInf)
  else JsNum.num (a / b)

/-- Multiplication by 100 (`(x) * 100` on the percentage ratios). -/
def jsTimes100 : JsNum → JsNum
  | JsNum.num q => JsNum.num (q * 100)
  | JsNum.nan => JsNum.nan
  | JsNum.posInf => JsNum.posInf
  | JsNum.negInf => JsNum.negInf

/-- `Math.round` : half-up rounding, propagating `NaN` and infinities. -/
def jsRound : JsNum → JsNum
  | JsNum.num q => JsNum.num (⌊q + 1 / 2⌋ : ℤ)
  | JsNum.nan => JsNum.nan
  | JsNum.posInf => JsNum.posInf
  | JsNum.negInf => JsNum.negInf

/-- `Math.max(...scores)` : `-Infinity` on an empty spread. -/
def jsMaxOfScores : List Nat → JsNum
  | [] => JsNum.negInf
  | x :: xs => JsNum.num (xs.foldl (fun a b => max a b) x : Nat)

/-- `Math.min(...scores)` : `Infinity` on an empty spread. -/
def jsMinOfScores : List Nat → JsNum
  | [] => JsNum.posInf
  | x :: xs => JsNum.num (xs.foldl (fun a b => min a b) x : Nat)

structure IntentDistribution where
  high : Nat
  medium : Nat
  low : Nat
deriving DecidableEq

/-- The three percentage values `(count / total) * 100`.  The source then
formats each with `.toFixed(1) + '%'`; the decimal formatting is not
modelled, the numeric value (on which `toFixed` yields `"NaN"` exactly for
`NaN`) is kept. -/
structure IntentPercentages where
  high : JsNum
  medium : JsNum
  low : JsNum
deriving DecidableEq

structure ScoreStats where
  average : JsNum
  maximum : JsNum
  minimum : JsNum
deriving DecidableEq

structure SummaryStats where
  total_leads : Nat
  intent_distribution : IntentDistribution
  intent_percentages : IntentPercentages
  score_stats : ScoreStats
deriving DecidableEq

/-- `calculateSummaryStats(scoredLeads)`, exactly as in the source: the
average is `scores.reduce(..., 0) / total` (division by a zero total is NOT
guarded), the maximum and minimum are `Math.max`/`Math.min` over the spread
scores. -/
def calculateSummaryStats (scoredLeads : List ScoredLead) : SummaryStats :=
  let total := scoredLeads.length
  let highIntent := (scoredLeads.filter (fun l => l.intent == "High")).length
  let mediumIntent := (scoredLeads.filter (fun l => l.intent == "Medium")).length
  let lowIntent := (scoredLeads.filter (fun l => l.intent == "Low")).length
  let scores := scoredLeads.map (fun l => l.score)
  let avgScore := jsDiv ((scores.foldl (fun s x => s + x) 0 : Nat) : ℚ) (total : ℚ)
  { total_leads := total,
    intent_distribution := { high := highIntent, medium := mediumIntent, low := lowIntent },
    intent_percentages :=
      { high := jsTimes100 (jsDiv (highIntent : ℚ) (total : ℚ)),
        medium := jsTimes100 (jsDiv (mediumIntent : ℚ) (total : ℚ)),
        low := jsTimes100 (jsDiv (lowIntent : ℚ) (total : ℚ)) },
    score_stats :=
      { average := jsRound avgScore,
        maximum := jsMaxOfScores scores,
        minimum := jsMinOfScores scores } }

/-! ## Helper lemmas -/

/-- `Char.ofNat` of a valid scalar value has that value as `toNat`. -/
theorem char_toNat_ofNat_valid {n : Nat} (h : Nat.isValidChar n) :
    (Char.ofNat n).toNat = n := by
  unfold Char.ofNat
  rw [dif_pos h]
  simp [Char.toNat, Char.ofNatAux, UInt32.toNat, BitVec.toNat_ofNatLt]

/-- Lowering after uppering is lowering (ASCII case mapping). -/
theorem char_toLower_toUpper (c : Char) : c.toUpper.toLower = c.toLower := by
  by_cases h : c.toNat ≥ 97 ∧ c.toNat ≤ 122
  · have hv : Nat.isValidChar (c.toNat - 32) := Or.inl (by omega)
    have h1 : (Char.ofNat (c.toNat - 32)).toNat = c.toNat - 32 := char_toNat_ofNat_valid hv
    have hu : c.toUpper = Char.ofNat (c.toNat - 32) := by
      simp only [Char.toUpper]
      rw [if_pos h]
    rw [hu]
    simp only [Char.toLower, h1]
    rw [if_pos (by omega : c.toNat - 32 ≥ 65 ∧ c.toNat - 32 ≤ 90)]
    rw [if_neg (by omega : ¬(c.toNat ≥ 65 ∧ c.toNat ≤ 90))]
    have h2 : c.toNat - 32 + 32 = c.toNat := by omega
    rw [h2, Char.ofNat_toNat]
  · have hu : c.toUpper = c := by
      simp only [Char.toUpper]
      rw [if_neg h]
    rw [hu]

/-- Lowering is idempotent (ASCII case mapping). -/
theorem char_toLower_idem (c : Char) : c.toLower.toLower = c.toLower := by
  by_cases h : c.toNat ≥ 65 ∧ c.toNat ≤ 90
  · have hv : Nat.isValidChar (c.toNat + 32) := Or.inl (by omega)
    have h1 : (Char.ofNat (c.toNat + 32)).toNat = c.toNat + 32 := char_toNat_ofNat_valid hv
    have hl : c.toLower = Char.ofNat (c.toNat + 32) := by
      simp only [Char.toLower]
      rw [if_pos h]
    rw [hl]
    simp only [Char.toLower, h1]
    rw [if_neg (by omega : ¬(c.toNat + 32 ≥ 65 ∧ c.toNat + 32 ≤ 90))]
  · have hl : c.toLower = c := by
      simp only [Char.toLower]
      rw [if_neg h]
    rw [hl]
    simp only [Char.toLower]
    rw [if_neg h]

theorem lowerList_upperList (l : List Char) : lowerList (upperList l) = lowerList l := by
  induction l with
  | nil => rfl
  | cons c t ih =>
    simp only [lowerList, upperList, List.map_cons] at ih ⊢
    rw [char_toLower_toUpper c, ih]

theorem lowerList_idem (l : List Char) : lowerList (lowerList l) = lowerList l := by
  induction l with
  | nil => rfl
  | cons c t ih =>
    simp only [lowerList, List.map_cons] at ih ⊢
    rw [char_toLower_idem c, ih]

theorem lowerStr_upperStr (s : String) : lowerStr (upperStr s) = lowerStr s :=
  congrArg String.mk (lowerList_upperList s.data)

theorem lowerStr_idem (s : String) : lowerStr (lowerStr s) = lowerStr s :=
  congrArg String.mk (lowerList_idem s.data)

/-- Uppering preserves (non-)emptiness. -/
theorem upperStr_beq_empty (s : String) : (upperStr s == "") = (s == "") := by
  cases s with
  | mk data =>
    cases data with
    | nil => rfl
    | cons c t =>
      simp [upperStr, upperList, String.ext_iff]

/-- Lowering preserves (non-)emptiness. -/
theorem lowerStr_beq_empty (s : String) : (lowerStr s == "") = (s == "") := by
  cases s with
  | mk data =>
    cases data with
    | nil => rfl
    | cons c t =>
      simp [lowerStr, lowerList, String.ext_iff]

/-- Every branch of the fallback heuristic is tagged `source = 'fallback'`. -/
theorem getFallbackScore_source (lead : Option Lead) (offer : Option Offer) :
    (getFallbackScore lead offer).source = AISource.fallback := by
  cases lead with
  | none => rfl
  | some l =>
    simp only [getFallbackScore]
    split
    · rfl
    · split <;> rfl

/-! ## Claims -/

/-- Claim C2 (code bug): the spec requires `calculateSummaryStats` over an
empty scored-lead list to omit score stats or report zeros, never producing
NaN/undefined/infinite values.  The code divides by the zero total and
spreads empty score lists into `Math.max`/`Math.min`, so the summary of an
empty list contains NaN percentages, a NaN average, a `-Infinity` maximum
and an `Infinity` minimum (no exception propagates, but the output is not
well-formed). -/
theorem calculateSummaryStats_empty_nan :
    (calculateSummaryStats []).score_stats =
      { average := JsNum.nan, maximum := JsNum.negInf, minimum := JsNum.posInf }
    ∧ (calculateSummaryStats []).intent_percentages =
      { high := JsNum.nan, medium := JsNum.nan, low := JsNum.nan }
    ∧ (calculateSummaryStats []).total_leads = 0 := by
  refine ⟨?_, ?_, rfl⟩ <;> decide

/-- Claim C4 (confirmed): `scoreLeadWithAI` is total (the embedding returns
a plain `AIScoreResult`, never an exception): with no credential configured
it returns the fallback result; when the Gemini call throws it catches and
returns the fallback result; a falsy response text also lands in the
fallback; and every fallback result is tagged `source = 'fallback'`. -/
theorem scoreLeadWithAI_absorbs_failures (geminiCall : Except String String)
    (lead : Option Lead) (offer : Option Offer) :
    scoreLeadWithAI false geminiCall lead offer = getFallbackScore lead offer
    ∧ (∀ e : String, scoreLeadWithAI true (Except.error e) lead offer = getFallbackScore lead offer)
    ∧ scoreLeadWithAI true (Except.ok "") lead offer = getFallbackScore none none
    ∧ (getFallbackScore lead offer).source = AISource.fallback
    ∧ (getFallbackScore none none).source = AISource.fallback := by
  exact ⟨rfl, fun e => rfl, rfl, getFallbackScore_source lead offer, rfl⟩

/-- Claim C7 (confirmed): the pipeline emits exactly one scored lead per
input lead, in input order (output position `i` is determined by input
position `i` alone), and a lead whose scoring iteration throws is recorded
as the catch branch's zero-score placeholder (score 0, intent `'Low'`,
zeroed breakdown, error-flagged details) without affecting any other
position. -/
theorem runScoringPipeline_per_lead_isolation (offer : Option Offer)
    (items : List (Lead × Except String AIScoreResult)) :
    (runScoringPipeline offer items).length = items.length
    ∧ (∀ i : Nat, (runScoringPipeline offer items)[i]? =
        (items[i]?).map (fun it => processLead offer it.1 it.2))
    ∧ (∀ (lead : Lead) (msg : String),
        processLead offer lead (Except.error msg) =
          { name := lead.name, role := lead.role, company := lead.company,
            industry := lead.industry, location := lead.location,
            linkedin_bio := lead.linkedin_bio,
            intent := "Low", score := 0,
            reasoning := "Error during scoring: " ++ msg,
            breakdown := { rule_score := 0, ai_score := 0, final_score := 0 },
            details := ScoredDetails.failed msg }) := by
  refine ⟨by simp [runScoringPipeline], fun i => ?_, fun lead msg => rfl⟩
  simp [runScoringPipeline, List.getElem?_map]

/-- Claim C10 (confirmed): the fallback heuristic never reads the offer:
for any lead and any two offers (absent ones included) the results are
identical — in the source the `offer` parameter of `getFallbackScore` is
never used. -/
theorem getFallbackScore_offer_independent (lead : Option Lead) (o1 o2 : Option Offer) :
    getFallbackScore lead o1 = getFallbackScore lead o2 := rfl

/-- At most six fields can count as complete. -/
theorem countCompleteFields_le (lead : Lead) : countCompleteFields lead ≤ 6 := by
  have h : (leadFields lead).countP fieldComplete ≤ (leadFields lead).length :=
    List.countP_le_length fieldComplete
  simpa [leadFields] using h

/-- Claim C5 (confirmed): the completeness score is 10 exactly when all six
required fields are present and non-empty after trimming, and is
`floor(present / 6 * 10)` (natural division `present * 10 / 6`) otherwise;
five of six fields give 8. -/
theorem calculateCompletenessScore_spec (lead : Lead) :
    countCompleteFields lead ≤ 6
    ∧ (calculateCompletenessScore lead = 10 ↔ countCompleteFields lead = 6)
    ∧ (countCompleteFields lead = 6 ↔ ∀ f ∈ leadFields lead, fieldComplete f = true)
    ∧ (countCompleteFields lead ≠ 6 →
        calculateCompletenessScore lead = countCompleteFields lead * 10 / 6)
    ∧ (countCompleteFields lead = 5 → calculateCompletenessScore lead = 8) := by
  have hle : countCompleteFields lead ≤ 6 := countCompleteFields_le lead
  have hval : calculateCompletenessScore lead =
      if countCompleteFields lead == 6 then 10 else countCompleteFields lead * 10 / 6 := rfl
  refine ⟨hle, ?_, ?_, ?_, ?_⟩
  · by_cases h6 : countCompleteFields lead = 6
    · simp [hval, h6]
    · have hb : (countCompleteFields lead == 6) = false := by simp [h6]
      rw [hval, hb, if_neg (by simp)]
      constructor
      · intro h
        omega
      · intro h
        exact absurd h h6
  · have hlen : (leadFields lead).length = 6 := rfl
    rw [countCompleteFields, ← hlen]
    exact List.countP_eq_length
  · intro h6
    have hb : (countCompleteFields lead == 6) = false := by simp [h6]
    rw [hval, hb, if_neg (by simp)]
  · intro h5
    rw [hval, h5]
    rfl

/-- Witness for claim C5: a lead with exactly five of the six fields filled
scores `floor(5 / 6 * 10) = 8`. -/
theorem calculateCompletenessScore_spec_witness :
    calculateCompletenessScore ⟨some "A", some "B", some "C", some "D", some "E", none⟩ = 8
    ∧ countCompleteFields ⟨some "A", some "B", some "C", some "D", some "E", none⟩ = 5 :=
  ⟨(calculateCompletenessScore_spec ⟨some "A", some "B", some "C", some "D", some "E", none⟩).2.2.2.2
      (by decide), by decide⟩

theorem calculateRoleScore_cases (role : Option String) :
    calculateRoleScore role = 0 ∨ calculateRoleScore role = 10 ∨ calculateRoleScore role = 20 := by
  cases role with
  | none => exact Or.inl rfl
  | some r =>
    simp only [calculateRoleScore]
    split
    · exact Or.inl rfl
    · split
      · exact Or.inr (Or.inr rfl)
      · split
        · exact Or.inr (Or.inl rfl)
        · exact Or.inl rfl

theorem calculateIndustryScore_cases (industry : Option String) (offer : Option Offer) :
    calculateIndustryScore industry offer = 0 ∨ calculateIndustryScore industry offer = 10
      ∨ calculateIndustryScore industry offer = 20 := by
  cases industry with
  | none => exact Or.inl rfl
  | some ind =>
    simp only [calculateIndustryScore]
    split
    · exact Or.inl rfl
    · split
      · exact Or.inr (Or.inr rfl)
      · split
        · exact Or.inr (Or.inr rfl)
        · split
          · exact Or.inr (Or.inl rfl)
          · exact Or.inl rfl

theorem calculateCompletenessScore_le (lead : Lead) : calculateCompletenessScore lead ≤ 10 := by
  have hle : countCompleteFields lead ≤ 6 := countCompleteFields_le lead
  simp only [calculateCompletenessScore]
  split
  · exact le_refl 10
  · omega

/-- Claim C8 (confirmed): the rule-score total is exactly the sum of the
three sub-scores and lies in `[0, 50]`; the `Math.min(…, 50)` cap never
changes the value because the sub-scores are bounded by 20, 20 and 10. -/
theorem calculateRuleScore_total_spec (lead : Lead) (offer : Option Offer) :
    (calculateRuleScore lead offer).total =
      (calculateRuleScore lead offer).roleScore + (calculateRuleScore lead offer).industryScore
        + (calculateRuleScore lead offer).completenessScore
    ∧ 0 ≤ (calculateRuleScore lead offer).total
    ∧ (calculateRuleScore lead offer).total ≤ 50
    ∧ (calculateRuleScore lead offer).roleScore ≤ 20
    ∧ (calculateRuleScore lead offer).industryScore ≤ 20
    ∧ (calculateRuleScore lead offer).completenessScore ≤ 10 := by
  have hr : calculateRoleScore lead.role ≤ 20 := by
    rcases calculateRoleScore_cases lead.role with h | h | h <;> omega
  have hi : calculateIndustryScore lead.industry offer ≤ 20 := by
    rcases calculateIndustryScore_cases lead.industry offer with h | h | h <;> omega
  have hc : calculateCompletenessScore lead ≤ 10 := calculateCompletenessScore_le lead
  have hfr : (calculateRuleScore lead offer).roleScore = calculateRoleScore lead.role := rfl
  have hfi : (calculateRuleScore lead offer).industryScore =
      calculateIndustryScore lead.industry offer := rfl
  have hfc : (calculateRuleScore lead offer).completenessScore =
      calculateCompletenessScore lead := rfl
  have hft : (calculateRuleScore lead offer).total =
      min (calculateRoleScore lead.role + calculateIndustryScore lead.industry offer
        + calculateCompletenessScore lead) 50 := rfl
  refine ⟨?_, Nat.zero_le _, ?_, ?_, ?_, ?_⟩ <;>
    simp only [hfr, hfi, hfc, hft] <;> omega

/-- Claim C3 (confirmed): the fallback classifier returns the
insufficient-data Low/10 result for an absent lead (without evaluating the
three heuristics), the High/50 result when all three booleans hold, the
Medium/30 result when the conjunction fails but role-or-industry holds, and
the Low/10 result when neither the role nor the industry boolean holds. -/
theorem getFallbackScore_heuristic_spec (offer : Option Offer) (l : Lead) :
    getFallbackScore none offer =
      { intent := "Low", reasoning := "Insufficient lead data for analysis",
        aiPoints := 10, source := AISource.fallback }
    ∧ (hasDecisionMakerRole l = true → hasTechIndustry l = true → hasCompleteProfile l = true →
        getFallbackScore (some l) offer =
          { intent := "High",
            reasoning := "Fallback analysis: Decision maker in tech industry with complete profile indicates high intent",
            aiPoints := 50, source := AISource.fallback })
    ∧ ((hasDecisionMakerRole l && hasTechIndustry l && hasCompleteProfile l) = false →
        (hasDecisionMakerRole l || hasTechIndustry l) = true →
        getFallbackScore (some l) offer =
          { intent := "Medium",
            reasoning := "Fallback analysis: Some positive indicators but not all criteria met",
            aiPoints := 30, source := AISource.fallback })
    ∧ (hasDecisionMakerRole l = false → hasTechIndustry l = false →
        getFallbackScore (some l) offer =
          { intent := "Low",
            reasoning := "Fallback analysis: Limited indicators of buying intent or decision-making authority",
            aiPoints := 10, source := AISource.fallback }) := by
  refine ⟨rfl, fun h1 h2 h3 => ?_, fun hAll hOr => ?_, fun h1 h2 => ?_⟩
  · simp [getFallbackScore, h1, h2, h3]
  · simp [getFallbackScore, hAll, hOr]
  · simp [getFallbackScore, h1, h2]

/-- Witness for claim C3: a CEO in SaaS with the four core fields filled
takes the High/50 branch; a junior developer in agriculture takes the
Low/10 branch. -/
theorem getFallbackScore_heuristic_witness :
    getFallbackScore (some ⟨some "Y", some "CEO", some "X", some "SaaS", none, none⟩) none =
      { intent := "High",
        reasoning := "Fallback analysis: Decision maker in tech industry with complete profile indicates high intent",
        aiPoints := 50, source := AISource.fallback }
    ∧ getFallbackScore (some ⟨none, some "Junior Developer", none, some "Agriculture", none, none⟩) none =
      { intent := "Low",
        reasoning := "Fallback analysis: Limited indicators of buying intent or decision-making authority",
        aiPoints := 10, source := AISource.fallback } :=
  ⟨(getFallbackScore_heuristic_spec none ⟨some "Y", some "CEO", some "X", some "SaaS", none, none⟩).2.1
      (by decide) (by decide) (by decide),
   (getFallbackScore_heuristic_spec none ⟨none, some "Junior Developer", none, some "Agriculture", none, none⟩).2.2.2
      (by decide) (by decide)⟩

/-- Characterisation of the final-intent thresholds. -/
theorem finalIntentOf_iff (n : Nat) :
    (finalIntentOf n = "High" ↔ 70 ≤ n)
    ∧ (finalIntentOf n = "Medium" ↔ 40 ≤ n ∧ n < 70)
    ∧ (finalIntentOf n = "Low" ↔ n < 40) := by
  by_cases h70 : n ≥ 70
  · have hv : finalIntentOf n = "High" := by
      unfold finalIntentOf
      rw [if_pos h70]
    rw [hv]
    exact ⟨⟨fun _ => h70, fun _ => rfl⟩,
           ⟨fun heq => absurd heq (by decide), fun hn => absurd h70 (by omega)⟩,
           ⟨fun heq => absurd heq (by decide), fun hn => absurd h70 (by omega)⟩⟩
  · by_cases h40 : n ≥ 40
    · have hv : finalIntentOf n = "Medium" := by
        unfold finalIntentOf
        rw [if_neg h70, if_pos h40]
      rw [hv]
      exact ⟨⟨fun heq => absurd heq (by decide), fun hn => absurd hn h70⟩,
             ⟨fun _ => ⟨h40, by omega⟩, fun _ => rfl⟩,
             ⟨fun heq => absurd heq (by decide), fun hn => absurd h40 (by omega)⟩⟩
    · have hv : finalIntentOf n = "Low" := by
        unfold finalIntentOf
        rw [if_neg h70, if_neg h40]
      rw [hv]
      exact ⟨⟨fun heq => absurd heq (by decide), fun hn => absurd hn h70⟩,
             ⟨fun heq => absurd heq (by decide), fun hn => absurd hn.1 h40⟩,
             ⟨fun _ => by omega, fun _ => rfl⟩⟩

/-- Claim C1 (confirmed): for every processed lead the final score is
`min(ruleScoreTotal + intentPoints, 100)`, and the final intent is the
fixed threshold function of the final score alone (High at 70, Medium at
40, Low below; boundary values 39, 40, 69, 70 behave exactly as specified),
independent of the classifier's own intent label. -/
theorem processLead_final_score_spec (offer : Option Offer) (lead : Lead)
    (outcome : Except String AIScoreResult) :
    (∀ ai : AIScoreResult, (processLead offer lead (Except.ok ai)).score =
        min ((calculateRuleScore lead offer).total + ai.aiPoints) 100)
    ∧ (processLead offer lead outcome).intent =
        finalIntentOf (processLead offer lead outcome).score
    ∧ (∀ n : Nat, (finalIntentOf n = "High" ↔ 70 ≤ n)
        ∧ (finalIntentOf n = "Medium" ↔ 40 ≤ n ∧ n < 70)
        ∧ (finalIntentOf n = "Low" ↔ n < 40))
    ∧ finalIntentOf 39 = "Low" ∧ finalIntentOf 40 = "Medium"
    ∧ finalIntentOf 69 = "Medium" ∧ finalIntentOf 70 = "High"
    ∧ (∀ ai1 ai2 : AIScoreResult, ai1.aiPoints = ai2.aiPoints →
        (processLead offer lead (Except.ok ai1)).intent =
          (processLead offer lead (Except.ok ai2)).intent) := by
  refine ⟨fun ai => rfl, ?_, finalIntentOf_iff, rfl, rfl, rfl, rfl, fun ai1 ai2 h => ?_⟩
  · cases outcome with
    | ok ai => rfl
    | error msg => rfl
  · simp only [processLead]
    rw [h]

/-- Witness for claim C1: two classifier results with the same points but
different labels produce the same final intent; the thresholds hit the
boundary values exactly. -/
theorem processLead_final_score_witness :
    (processLead none ⟨none, none, none, none, none, none⟩
        (Except.ok ⟨"Low", "r", 50, AISource.gemini⟩)).intent =
      (processLead none ⟨none, none, none, none, none, none⟩
        (Except.ok ⟨"High", "r", 50, AISource.fallback⟩)).intent
    ∧ finalIntentOf 70 = "High" ∧ finalIntentOf 39 = "Low" := by
  refine ⟨?_, ?_, ?_⟩
  · exact (processLead_final_score_spec none ⟨none, none, none, none, none, none⟩
      (Except.error "e")).2.2.2.2.2.2.2
      ⟨"Low", "r", 50, AISource.gemini⟩ ⟨"High", "r", 50, AISource.fallback⟩ rfl
  · exact ((processLead_final_score_spec none ⟨none, none, none, none, none, none⟩
      (Except.error "e")).2.2.1 70).1.mpr (by omega)
  · exact ((processLead_final_score_spec none ⟨none, none, none, none, none, none⟩
      (Except.error "e")).2.2.1 39).2.2.mpr (by omega)

/-- `calculateRoleScore` reads its argument only through its emptiness test
and its lowering. -/
theorem calculateRoleScore_congr (r s : String) (h0 : (r == "") = (s == ""))
    (h1 : lowerStr r = lowerStr s) :
    calculateRoleScore (some r) = calculateRoleScore (some s) := by
  simp only [calculateRoleScore, h0, h1]

/-- On ASCII characters the JS uppercase conversion is the ASCII mapping. -/
theorem jsUpperList_ascii (l : List Char) (h : ∀ c ∈ l, c.toNat < 128) :
    jsUpperList l = upperList l := by
  induction l with
  | nil => rfl
  | cons c t ih =>
    have hc := h c (List.mem_cons_self _ _)
    have ht : ∀ x ∈ t, x.toNat < 128 := fun x hx => h x (List.mem_cons_of_mem _ hx)
    have h1 : (c.toNat == 0x17F) = false := by
      simp only [beq_eq_false_iff_ne]
      omega
    have h2 : (c.toNat == 0xDF) = false := by
      simp only [beq_eq_false_iff_ne]
      omega
    have h3 : (c.toNat == 0xFB06) = false := by
      simp only [beq_eq_false_iff_ne]
      omega
    simp only [jsUpperList, upperList, List.map_cons, jsUpperChar, h1, h2, h3,
      if_false, List.cons_append, List.nil_append]
    rw [ih ht]
    rfl

/-- On ASCII characters the JS lowercase conversion is the ASCII mapping. -/
theorem jsLowerList_ascii (l : List Char) (h : ∀ c ∈ l, c.toNat < 128) :
    jsLowerList l = lowerList l := by
  induction l with
  | nil => rfl
  | cons c t ih =>
    have hc := h c (List.mem_cons_self _ _)
    have ht : ∀ x ∈ t, x.toNat < 128 := fun x hx => h x (List.mem_cons_of_mem _ hx)
    have h1 : (c.toNat == 0x212A) = false := by
      simp only [beq_eq_false_iff_ne]
      omega
    have h2 : (c.toNat == 0x130) = false := by
      simp only [beq_eq_false_iff_ne]
      omega
    simp only [jsLowerList, lowerList, List.map_cons, jsLowerChar, h1, h2,
      if_false, List.cons_append, List.nil_append]
    rw [ih ht]
    rfl

/-- Counterexample for claim C9: role scoring is NOT invariant under the
full JS `toUpperCase`.  The role `"preſident"` (with U+017F LATIN SMALL
LETTER LONG S, which JS uppercases to `S` and lowercases to itself) matches
no keyword and scores 0, while its JS uppercase is exactly `"PRESIDENT"`,
which scores 20. -/
theorem calculateRoleScore_unicode_cex :
    jsUpperStr "preſident" = "PRESIDENT"
    ∧ calculateRoleScore (some "preſident") = 0
    ∧ calculateRoleScore (some "PRESIDENT") = 20
    ∧ calculateRoleScore (some (jsUpperStr "preſident")) ≠
        calculateRoleScore (some "preſident") := by
  refine ⟨?_, ?_, ?_, ?_⟩ <;> decide

/-- Claim C9 (corrected to ASCII role strings): for every role string all
of whose characters are ASCII — on which the JS case conversions coincide
with the ASCII case mapping — the score is unchanged by JS uppercasing or
lowercasing; for every role string (ASCII or not) the score is one of 0,
10, 20, and the decision-maker keyword set is checked before the
influencer set. -/
theorem calculateRoleScore_case_insensitive (role : String) :
    ((∀ c ∈ role.data, c.toNat < 128) →
      calculateRoleScore (some (jsUpperStr role)) = calculateRoleScore (some role)
      ∧ calculateRoleScore (some (jsLowerStr role)) = calculateRoleScore (some role))
    ∧ (calculateRoleScore (some role) = 0 ∨ calculateRoleScore (some role) = 10
        ∨ calculateRoleScore (some role) = 20)
    ∧ calculateRoleScore none = 0
    ∧ (roleDecisionHit (lowerStr role) = true → calculateRoleScore (some role) = 20)
    ∧ (roleDecisionHit (lowerStr role) = false → roleInfluencerHit (lowerStr role) = true →
        calculateRoleScore (some role) = 10)
    ∧ (roleDecisionHit (lowerStr role) = false → roleInfluencerHit (lowerStr role) = false →
        calculateRoleScore (some role) = 0) := by
  refine ⟨fun hA => ?_, calculateRoleScore_cases (some role), rfl,
          fun hd => ?_, fun hd hi => ?_, fun hd hi => ?_⟩
  · have hu : jsUpperStr role = upperStr role :=
      congrArg String.mk (jsUpperList_ascii role.data hA)
    have hl : jsLowerStr role = lowerStr role :=
      congrArg String.mk (jsLowerList_ascii role.data hA)
    constructor
    · rw [hu]
      exact calculateRoleScore_congr _ _ (upperStr_beq_empty role) (lowerStr_upperStr role)
    · rw [hl]
      exact calculateRoleScore_congr _ _ (lowerStr_beq_empty role) (lowerStr_idem role)
  · by_cases h0 : role = ""
    · subst h0
      exact absurd hd (by decide)
    · have hb : (role == "") = false := by simp [h0]
      simp [calculateRoleScore, hb, hd]
  · by_cases h0 : role = ""
    · subst h0
      exact absurd hi (by decide)
    · have hb : (role == "") = false := by simp [h0]
      simp [calculateRoleScore, hb, hd, hi]
  · by_cases h0 : role = ""
    · subst h0
      rfl
    · have hb : (role == "") = false := by simp [h0]
      simp [calculateRoleScore, hb, hd, hi]

/-- Witness for claim C9: the ASCII role `"Ceo"` keeps its score under the
JS case conversions; `"CEO"` hits the decision-maker set (score 20),
`"Senior Engineer"` only the influencer set (score 10). -/
theorem calculateRoleScore_case_witness :
    calculateRoleScore (some (jsUpperStr "Ceo")) = calculateRoleScore (some "Ceo")
    ∧ calculateRoleScore (some (jsLowerStr "Ceo")) = calculateRoleScore (some "Ceo")
    ∧ calculateRoleScore (some "CEO") = 20
    ∧ calculateRoleScore (some "Senior Engineer") = 10 :=
  ⟨((calculateRoleScore_case_insensitive "Ceo").1 (by decide)).1,
   ((calculateRoleScore_case_insensitive "Ceo").1 (by decide)).2,
   (calculateRoleScore_case_insensitive "CEO").2.2.2.1 (by decide),
   (calculateRoleScore_case_insensitive "Senior Engineer").2.2.2.2.1 (by decide) (by decide)⟩

/-- If no line both starts with `intent:` and contains a regex match, the
`intent` accumulator is returned unchanged. -/
theorem parseLines_fst_const (lines : List (List Char)) (intent reasoning : String)
    (h : ∀ l ∈ lines, lowerStarts "intent:".data l = true → intentSearch l = none) :
    (parseLines lines intent reasoning).1 = intent := by
  induction lines generalizing intent reasoning with
  | nil => rfl
  | cons line rest ih =>
    have hline := h line (List.mem_cons_self _ _)
    have hrest : ∀ l ∈ rest, lowerStarts "intent:".data l = true → intentSearch l = none :=
      fun l hl => h l (List.mem_cons_of_mem _ hl)
    simp only [parseLines]
    by_cases h1 : lowerStarts "intent:".data line = true
    · rw [if_pos h1, hline h1]
      exact ih intent reasoning hrest
    · rw [if_neg h1]
      by_cases h2 : lowerStarts "reasoning:".data line = true
      · rw [if_pos h2]
        exact ih intent _ hrest
      · rw [if_neg h2]
        exact ih intent reasoning hrest

/-- If no line starts with `reasoning:`, the `reasoning` accumulator is
returned unchanged. -/
theorem parseLines_snd_const (lines : List (List Char)) (intent reasoning : String)
    (h : ∀ l ∈ lines, lowerStarts "reasoning:".data l = false) :
    (parseLines lines intent reasoning).2 = reasoning := by
  induction lines generalizing intent reasoning with
  | nil => rfl
  | cons line rest ih =>
    have hline := h line (List.mem_cons_self _ _)
    have hrest : ∀ l ∈ rest, lowerStarts "reasoning:".data l = false :=
      fun l hl => h l (List.mem_cons_of_mem _ hl)
    simp only [parseLines]
    by_cases h1 : lowerStarts "intent:".data line = true
    · rw [if_pos h1]
      rcases hs : intentSearch line with _ | w
      · exact ih intent reasoning hrest
      · exact ih _ reasoning hrest
    · rw [if_neg h1]
      rw [if_neg (by simp [hline])]
      exact ih intent reasoning hrest

/-- Counterexample for claim C6: the empty response text is falsy, so the
parser takes the `!aiResponse` guard and returns the no-argument fallback —
its intent is `'Low'` (not the claimed default `'Medium'`), its points are
10 and its source is `'fallback'`, not the model tag. -/
theorem parseAIResponse_empty_cex :
    (parseAIResponse (some "")).source = AISource.fallback
    ∧ (parseAIResponse (some "")).intent = "Low"
    ∧ (parseAIResponse (some "")).aiPoints = 10
    ∧ AISource.fallback ≠ AISource.gemini := by decide

/-- Claim C6 (corrected to non-empty response texts): for every non-empty
response text the parser defaults the intent to `'Medium'` when no line has
a matching `intent:` prefix, defaults the reasoning to the generic
placeholder when no line has a `reasoning:` prefix, maps points through the
fixed table `{High: 50, Medium: 30, Low: 10}` with 30 for any unrecognized
intent, and tags the result `source = 'gemini'` (the spec's "model"). -/
theorem parseAIResponse_defaults (r : String) (hr : (r == "") = false) :
    ((∀ l ∈ splitNewlines (jsTrim r.data), lowerStarts "intent:".data l = true →
        intentSearch l = none) → (parseAIResponse (some r)).intent = "Medium")
    ∧ ((∀ l ∈ splitNewlines (jsTrim r.data), lowerStarts "reasoning:".data l = false) →
        (parseAIResponse (some r)).reasoning = "AI analysis completed")
    ∧ (parseAIResponse (some r)).aiPoints = intentToPoints (parseAIResponse (some r)).intent
    ∧ (parseAIResponse (some r)).source = AISource.gemini
    ∧ intentToPoints "High" = 50 ∧ intentToPoints "Medium" = 30 ∧ intentToPoints "Low" = 10
    ∧ (∀ s : String, s ≠ "High" → s ≠ "Medium" → s ≠ "Low" → intentToPoints s = 30) := by
  have hrec : parseAIResponse (some r) =
      { intent := (parseLines (splitNewlines (jsTrim r.data)) "Medium" "AI analysis completed").1,
        reasoning := (parseLines (splitNewlines (jsTrim r.data)) "Medium" "AI analysis completed").2,
        aiPoints := intentToPoints
          (parseLines (splitNewlines (jsTrim r.data)) "Medium" "AI analysis completed").1,
        source := AISource.gemini } := by
    simp only [parseAIResponse]
    rw [if_neg (by simp [hr])]
  refine ⟨fun h => ?_, fun h => ?_, ?_, ?_, rfl, rfl, rfl, fun s h1 h2 h3 => ?_⟩
  · rw [hrec]
    exact parseLines_fst_const _ _ _ h
  · rw [hrec]
    exact parseLines_snd_const _ _ _ h
  · rw [hrec]
  · rw [hrec]
  · simp [intentToPoints, h1, h2, h3]

/-- Witness for claim C6: the non-empty response `"hello"` has no intent or
reasoning line, so the defaults and the model tag appear. -/
theorem parseAIResponse_defaults_witness :
    (parseAIResponse (some "hello")).intent = "Medium"
    ∧ (parseAIResponse (some "hello")).reasoning = "AI analysis completed"
    ∧ (parseAIResponse (some "hello")).source = AISource.gemini :=
  ⟨(parseAIResponse_defaults "hello" (by decide)).1 (by decide),
   (parseAIResponse_defaults "hello" (by decide)).2.1 (by decide),
   (parseAIResponse_defaults "hello" (by decide)).2.2.2.1⟩

end LeadScoring
